import Mathlib

/-!
# EKG simulator: sample model and heart-rate view-model

A shallow embedding of `ekgmodel.cpp` and `ekgviewmodel.cpp`.

* A `double` that is finite is identified with the rational number it denotes; the samples
  held by `EKGModel` are finite because they only come from `bounded(0.0, 1.0)`.
  Comparisons of finite doubles are the comparisons of the rationals they denote.
* `peakCount * 60.0 / 10` is exact in binary64 for every count the code can reach
  (the product is an integer below `2 ^ 53` and the quotient `6 * peakCount` is again an
  integer below `2 ^ 53`, and IEEE division is correctly rounded), so it is embedded as the
  rational `peakCount * 60 / 10`.
* An unchecked `std::vector::operator[]` is embedded as `List` lookup into `Option`;
  `none` stands for an out-of-range access.
* An `int` is embedded as an integer and a `size_t` as a natural number. `m_data` is only
  ever filled by `generateData(int)`, so its size is below `2 ^ 31` and the conversions
  between `int` and `size_t` in `rowCount`, `data` and `index(m_data.size() - 1)` keep the
  value (`size() - 1` of an empty vector converts to `-1`). The one conversion that does
  not is `reserve(points)` for a negative `points`, embedded as the exception it raises.
* Objects live in a heap indexed by addresses; a pointer is `Option Addr` (`none` is `nullptr`).
* `emit` is embedded by returning the list of signals published by the call, in order.
-/

namespace EKG

/-! ## Values -/

/-- The value of the `double` literal `0.8` (binary64 `0x3FE999999999999A`). -/
def threshold : ℚ := 3602879701896397 / 4503599627370496

/-- Exceptions a call can leave with. -/
inductive Exn where
  | length_error
  deriving DecidableEq, Repr

/-- A `QModelIndex` of a list model: row, column and whether it carries a model pointer. -/
structure QModelIndex where
  row : Int
  column : Int
  hasModel : Bool
  deriving DecidableEq, Repr

/-- The default-constructed `QModelIndex()`. -/
def QModelIndex.invalid : QModelIndex := ⟨-1, -1, false⟩

/-- `QModelIndex::isValid()`. -/
def QModelIndex.isValid (index : QModelIndex) : Bool :=
  decide (0 ≤ index.row) && decide (0 ≤ index.column) && index.hasModel

/-- A `QVariant` as returned by `EKGModel::data`: empty, or holding a `double`. -/
inductive QVariant where
  | empty
  | double (v : ℚ)
  deriving DecidableEq

/-- `Qt::DisplayRole`. -/
def DisplayRole : Int := 0

/-- `Qt::UserRole`. -/
def UserRole : Int := 256

/-- `EKGModel::Roles::ValueRole = Qt::UserRole + 1`. -/
def ValueRole : Int := UserRole + 1

/-- Addresses of `EKGModel` objects. -/
abbrev Addr := Nat

/-- Signals published by the two classes. -/
inductive Signal where
  | dataChanged (topLeft bottomRight : QModelIndex)
  | modelChanged
  | heartRateChanged
  deriving DecidableEq

/-! ## The random source -/

/-- The state of `QRandomGenerator::global()`, as far as the program uses it: the values
its next calls `bounded(0.0, 1.0)` will return, in order. The library function is taken as
given; what it returns is the random source. -/
structure QRandomGenerator where
  draws : Nat → ℚ

/-- The call `rng->bounded(0.0, 1.0)`: the next draw, and the random source after it. -/
def QRandomGenerator.bounded (rng : QRandomGenerator) : ℚ × QRandomGenerator :=
  (rng.draws 0, ⟨fun n => rng.draws (n + 1)⟩)

/-! ## EKGModel -/

/-- The state of an `EKGModel`: `std::vector<double> m_data`. -/
structure EKGModel where
  m_data : List ℚ

/-- `EKGModel::getData()`. -/
def EKGModel.getData (m : EKGModel) : List ℚ := m.m_data

/-- `EKGModel::rowCount`: the result and the state the call leaves. -/
def EKGModel.rowCount (m : EKGModel) (_parent : QModelIndex) : Int × EKGModel :=
  ((m.m_data.length : Int), m)

/-- `QAbstractListModel::index(row)` (column 0, no parent): a valid index when
`hasIndex(row, 0)`, otherwise `QModelIndex()`. -/
def EKGModel.index (m : EKGModel) (row : Int) : QModelIndex :=
  if 0 ≤ row ∧ row < (m.rowCount QModelIndex.invalid).1 then ⟨row, 0, true⟩
  else QModelIndex.invalid

/-- `EKGModel::data`: the result (`none` for an out-of-range `m_data[...]`) and the state
the call leaves. -/
def EKGModel.data (m : EKGModel) (index : QModelIndex) (role : Int) :
    Option QVariant × EKGModel :=
  if !index.isValid || decide (index.row ≥ (m.m_data.length : Int)) then
    (some QVariant.empty, m)
  else if role = ValueRole then
    ((m.m_data[index.row.toNat]?).map QVariant.double, m)
  else
    (some QVariant.empty, m)

/-- The loop `for (int i = 0; i < points; ++i) m_data.push_back(rng->bounded(0.0, 1.0));`
of `EKGModel::generateData`, from loop variable `i` on. -/
def generateLoop (points : Int) (i : Int) (m_data : List ℚ) (rng : QRandomGenerator) :
    List ℚ × QRandomGenerator :=
  if i < points then
    generateLoop points (i + 1) (m_data ++ [rng.bounded.1]) rng.bounded.2
  else
    (m_data, rng)
termination_by (points - i).toNat
decreasing_by omega

/-- `EKGModel::generateData(int points)`: `clear`, `reserve` (a negative `points` converts
to a `size_t` above `max_size()`, for which `reserve` throws `std::length_error`), the
filling loop, and `emit dataChanged(index(0), index(m_data.size() - 1))`.
Returns the new model, the random source left over and the signals published; a throw
carries the model as `clear` left it. -/
def EKGModel.generateData (_m : EKGModel) (points : Int) (rng : QRandomGenerator) :
    Except (Exn × EKGModel) (EKGModel × QRandomGenerator × List Signal) :=
  let cleared : List ℚ := []
  if points < 0 then
    Except.error (Exn.length_error, ⟨cleared⟩)
  else
    let r := generateLoop points 0 cleared rng
    let m1 : EKGModel := ⟨r.1⟩
    Except.ok (m1, r.2,
      [Signal.dataChanged (m1.index 0) (m1.index ((r.1.length : Int) - 1))])

/-- The constructor `EKGModel::EKGModel`: an empty `m_data`, then `generateData(1000)`. -/
def EKGModel.new (rng : QRandomGenerator) :
    Except (Exn × EKGModel) (EKGModel × QRandomGenerator × List Signal) :=
  EKGModel.generateData ⟨[]⟩ 1000 rng

/-! ## EKGViewModel -/

/-- The state of an `EKGViewModel`. -/
structure EKGViewModel where
  m_model : Option Addr
  m_heartRate : ℚ

/-- The constructor `EKGViewModel::EKGViewModel`: `m_model(nullptr), m_heartRate(0.0)`. -/
def EKGViewModel.new : EKGViewModel := ⟨none, 0⟩

/-- `EKGViewModel::model()`. -/
def EKGViewModel.model (vm : EKGViewModel) : Option Addr := vm.m_model

/-- `EKGViewModel::heartRate()`. -/
def EKGViewModel.heartRate (vm : EKGViewModel) : ℚ := vm.m_heartRate

/-- The scan loop of `EKGViewModel::calculateHeartRate`, from loop variable `i` on:
`for (size_t i = 1; i < data.size(); ++i) if (data[i] > 0.8 && data[i-1] <= 0.8) ++peakCount;`.
`none` when an access is out of range. -/
def peakLoop (data : List ℚ) (i : Nat) (peakCount : Int) : Option Int :=
  if i < data.length then
    match data[i]? with
    | none => none
    | some cur =>
      if cur > threshold then
        match data[i - 1]? with
        | none => none
        | some prev =>
          if prev ≤ threshold then peakLoop data (i + 1) (peakCount + 1)
          else peakLoop data (i + 1) peakCount
      else peakLoop data (i + 1) peakCount
  else
    some peakCount
termination_by data.length - i

/-- `EKGViewModel::calculateHeartRate()`, with the heap the model pointer points into.
Returns the new view-model and the signals published; `none` when an access is out of
range. -/
def EKGViewModel.calculateHeartRate (heap : Addr → EKGModel) (vm : EKGViewModel) :
    Option (EKGViewModel × List Signal) :=
  match vm.m_model with
  | none => some (vm, [])
  | some a =>
    match peakLoop (heap a).getData 1 0 with
    | none => none
    | some peakCount =>
      some ({ vm with m_heartRate := (peakCount : ℚ) * 60 / 10 }, [Signal.heartRateChanged])

/-- `EKGViewModel::setModel(EKGModel* model)`. -/
def EKGViewModel.setModel (heap : Addr → EKGModel) (vm : EKGViewModel) (model : Option Addr) :
    Option (EKGViewModel × List Signal) :=
  if vm.m_model ≠ model then
    let vm1 : EKGViewModel := { vm with m_model := model }
    match vm1.calculateHeartRate heap with
    | none => none
    | some (vm2, signals) => some (vm2, Signal.modelChanged :: signals)
  else
    some (vm, [])

/-! ## The two objects together -/

/-- The program state: the `EKGModel` objects by address and the `EKGViewModel`. -/
structure Sys where
  heap : Addr → EKGModel
  vm : EKGViewModel

/-- The calls that drive the program state. -/
inductive Op where
  | setModel (model : Option Addr)
  | calculateHeartRate
  | generateData (a : Addr) (points : Int) (rng : QRandomGenerator)

/-- One call on the program state. A `generateData` that throws leaves its model as the
throw left it and the run goes on (the caller catches the exception); `none` only when a
call makes an out-of-range access. -/
def Sys.step (s : Sys) : Op → Option Sys
  | Op.setModel model =>
    match s.vm.setModel s.heap model with
    | none => none
    | some (vm, _) => some ⟨s.heap, vm⟩
  | Op.calculateHeartRate =>
    match s.vm.calculateHeartRate s.heap with
    | none => none
    | some (vm, _) => some ⟨s.heap, vm⟩
  | Op.generateData a points rng =>
    match (s.heap a).generateData points rng with
    | Except.error (_, m) => some ⟨Function.update s.heap a m, s.vm⟩
    | Except.ok (m, _, _) => some ⟨Function.update s.heap a m, s.vm⟩

/-- A state right after construction: every model freshly constructed, and a freshly
constructed view-model. -/
def Sys.Initial (s : Sys) : Prop :=
  s.vm = EKGViewModel.new ∧
    ∀ a, ∃ rng rng1 signals, EKGModel.new rng = Except.ok (s.heap a, rng1, signals)

/-- The states reachable from construction by any interleaving of `setModel`,
`calculateHeartRate` and `generateData` on the bound model. -/
inductive Sys.Reachable : Sys → Prop where
  | initial (s : Sys) : s.Initial → Sys.Reachable s
  | setModel (s s1 : Sys) (model : Option Addr) :
      Sys.Reachable s → s.step (Op.setModel model) = some s1 → Sys.Reachable s1
  | calculateHeartRate (s s1 : Sys) :
      Sys.Reachable s → s.step Op.calculateHeartRate = some s1 → Sys.Reachable s1
  | generateData (s s1 : Sys) (a : Addr) (points : Int) (rng : QRandomGenerator) :
      Sys.Reachable s → s.vm.m_model = some a →
      s.step (Op.generateData a points rng) = some s1 → Sys.Reachable s1

/-! ## The rising-edge count, as the specification words it -/

/-- Index `i` is a rising-edge crossing of the threshold in `s`:
`1 ≤ i < length s`, `s[i-1] ≤ 0.8` and `s[i] > 0.8`. -/
def isRisingEdge (s : List ℚ) (i : Nat) : Bool :=
  decide (1 ≤ i) &&
    match s[i - 1]?, s[i]? with
    | some prev, some cur => decide (prev ≤ threshold) && decide (cur > threshold)
    | _, _ => false

/-- The number of indices `i` with `1 ≤ i < length s` that are rising-edge crossings. -/
def risingEdgeCount (s : List ℚ) : Nat :=
  ((Finset.Ico 1 s.length).filter (fun i => isRisingEdge s i = true)).card

/-! ## Specification-side notions for the program state -/

/-- What `Sys.Synced` guarantees: the heart rate of a bound model is up to date. -/
def Sys.UpToDate (s : Sys) : Prop :=
  ∀ a, s.vm.model = some a → s.vm.heartRate = 6 * (risingEdgeCount (s.heap a).getData : ℚ)

/-- The reachable states in which `generateData` was not called on the bound model since
`heartRate` was last computed: `calculateHeartRate` and a `setModel` that changes the bound
model lead into them from every reachable state, and every other `setModel` stays in
them. -/
inductive Sys.Synced : Sys → Prop where
  | initial (s : Sys) : s.Initial → Sys.Synced s
  | setModel (s s1 : Sys) (model : Option Addr) :
      Sys.Synced s → s.step (Op.setModel model) = some s1 → Sys.Synced s1
  | rebind (s s1 : Sys) (model : Option Addr) :
      Sys.Reachable s → s.vm.m_model ≠ model → s.step (Op.setModel model) = some s1 →
      Sys.Synced s1
  | calculateHeartRate (s s1 : Sys) :
      Sys.Reachable s → s.step Op.calculateHeartRate = some s1 → Sys.Synced s1

/-! ## Auxiliary definitions for the proofs -/

/-- The first `k` draws of a random source. -/
def firstDraws (rng : QRandomGenerator) (k : Nat) : List ℚ :=
  (List.range k).map rng.draws

/-- A random source after `k` draws. -/
def QRandomGenerator.advance (rng : QRandomGenerator) (k : Nat) : QRandomGenerator :=
  ⟨fun n => rng.draws (n + k)⟩

/-- The number of rising-edge crossings of `s` at indices from `i` on. -/
def edgesFrom (s : List ℚ) (i : Nat) : Nat :=
  ((Finset.Ico i s.length).filter (fun j => isRisingEdge s j = true)).card

/-- The rising-edge count, by recursion on adjacent pairs. -/
def pairEdges : List ℚ → Nat
  | x :: y :: r => (if x ≤ threshold ∧ y > threshold then 1 else 0) + pairEdges (y :: r)
  | _ => 0

/-! ## Concrete random sources and states -/

/-- The random source that always draws 0. -/
def zeroRng : QRandomGenerator := ⟨fun _ => 0⟩

/-- The random source that draws `1/2` first and `9/10` from then on. -/
def risingRng : QRandomGenerator := ⟨fun n => if n = 0 then 1 / 2 else 9 / 10⟩

/-- A state right after construction, every model built from `zeroRng`. -/
def sysConstructed : Sys := ⟨fun _ => ⟨firstDraws zeroRng 1000⟩, EKGViewModel.new⟩

/-- The state `sysConstructed` after `setModel` of the model at address 0: its 1000
samples are all 0, so the heart rate computed is 0. -/
def sysBound : Sys := ⟨sysConstructed.heap, ⟨some 0, 0⟩⟩

/-- The state `sysBound` after `generateData(2)` with `risingRng` on the bound model. -/
def sysRegenerated : Sys :=
  ⟨Function.update sysBound.heap 0 ⟨[1 / 2, 9 / 10]⟩, ⟨some 0, 0⟩⟩

/-- The state `sysRegenerated` after `calculateHeartRate`. -/
def sysRecomputed : Sys := ⟨sysRegenerated.heap, ⟨some 0, 6⟩⟩

/-! ## Facts about `generateData` -/

theorem firstDraws_length (rng : QRandomGenerator) (k : Nat) :
    (firstDraws rng k).length = k := by
  simp [firstDraws]

theorem firstDraws_succ (rng : QRandomGenerator) (k : Nat) :
    firstDraws rng (k + 1) =
      rng.bounded.1 :: firstDraws rng.bounded.2 k := by
  simp [firstDraws, List.range_succ_eq_map, QRandomGenerator.bounded, Function.comp_def]

theorem advance_succ (rng : QRandomGenerator) (k : Nat) :
    rng.advance (k + 1) = rng.bounded.2.advance k := by
  simp [QRandomGenerator.advance, QRandomGenerator.bounded, Nat.add_assoc, Nat.add_comm 1 k]

theorem generateLoop_eq (points : Int) (k : Nat) :
    ∀ (i : Int) (m_data : List ℚ) (rng : QRandomGenerator), (points - i).toNat = k →
      generateLoop points i m_data rng = (m_data ++ firstDraws rng k, rng.advance k) := by
  induction k with
  | zero =>
    intro i m_data rng hk
    have hi : ¬ i < points := by omega
    rw [generateLoop, if_neg hi]
    simp [firstDraws, QRandomGenerator.advance]
  | succ k ih =>
    intro i m_data rng hk
    have hi : i < points := by omega
    rw [generateLoop, if_pos hi, ih (i + 1) _ _ (by omega), firstDraws_succ, advance_succ]
    simp

theorem index_of_empty (row : Int) : (⟨[]⟩ : EKGModel).index row = QModelIndex.invalid := by
  simp [EKGModel.index, EKGModel.rowCount]

theorem generateData_ok (m : EKGModel) (points : Int) (rng : QRandomGenerator)
    (hp : 0 ≤ points) :
    m.generateData points rng =
      Except.ok (⟨firstDraws rng points.toNat⟩, rng.advance points.toNat,
        [Signal.dataChanged ((⟨firstDraws rng points.toNat⟩ : EKGModel).index 0)
          ((⟨firstDraws rng points.toNat⟩ : EKGModel).index (points - 1))]) := by
  have hlen : ((firstDraws rng points.toNat).length : Int) = points := by
    rw [firstDraws_length]
    omega
  simp [EKGModel.generateData, not_lt.mpr hp,
    generateLoop_eq points points.toNat 0 [] rng (by simp), hlen]

theorem generateData_negative (m : EKGModel) (points : Int) (rng : QRandomGenerator)
    (hp : points < 0) :
    m.generateData points rng = Except.error (Exn.length_error, ⟨[]⟩) := by
  simp [EKGModel.generateData, hp]

theorem firstDraws_mem (rng : QRandomGenerator) (k : Nat) (v : ℚ)
    (hr : ∀ n, 0 ≤ rng.draws n ∧ rng.draws n < 1) (hv : v ∈ firstDraws rng k) :
    0 ≤ v ∧ v < 1 := by
  simp only [firstDraws, List.mem_map, List.mem_range] at hv
  obtain ⟨n, _, rfl⟩ := hv
  exact hr n

theorem firstDraws_getElem (rng : QRandomGenerator) (k i : Nat)
    (h : i < (firstDraws rng k).length) : (firstDraws rng k)[i] = rng.draws i := by
  simp [firstDraws]

/-! ## Facts about the rising-edge count and the scan loop -/

theorem risingEdgeCount_eq_edgesFrom (s : List ℚ) : risingEdgeCount s = edgesFrom s 1 := rfl

theorem edgesFrom_of_length_le (s : List ℚ) (i : Nat) (h : s.length ≤ i) :
    edgesFrom s i = 0 := by
  simp [edgesFrom, Finset.Ico_eq_empty_of_le h]

theorem edgesFrom_step (s : List ℚ) (i : Nat) (h : i < s.length) :
    edgesFrom s i = (if isRisingEdge s i = true then 1 else 0) + edgesFrom s (i + 1) := by
  unfold edgesFrom
  rw [← Nat.Ico_insert_succ_left h, Finset.filter_insert]
  split_ifs with hi
  · rw [Finset.card_insert_of_not_mem (by simp), Nat.succ_eq_add_one, Nat.add_comm]
  · simp

theorem isRisingEdge_eq (s : List ℚ) (i : Nat) (h0 : 1 ≤ i) (h : i < s.length) :
    isRisingEdge s i =
      (decide (s[i - 1] ≤ threshold) && decide (s[i] > threshold)) := by
  have h1 : i - 1 < s.length := by omega
  simp [isRisingEdge, h0, List.getElem?_eq_getElem h, List.getElem?_eq_getElem h1]

theorem peakLoop_eq (data : List ℚ) (n : Nat) :
    ∀ (i : Nat) (peakCount : Int), 1 ≤ i → data.length - i = n →
      peakLoop data i peakCount = some (peakCount + (edgesFrom data i : Int)) := by
  induction n with
  | zero =>
    intro i peakCount _ hn
    have hi : ¬ i < data.length := by omega
    rw [peakLoop, if_neg hi, edgesFrom_of_length_le data i (by omega)]
    simp
  | succ n ih =>
    intro i peakCount h0 hn
    have hi : i < data.length := by omega
    have h1 : i - 1 < data.length := by omega
    rw [peakLoop, if_pos hi, edgesFrom_step data i hi, isRisingEdge_eq data i h0 hi,
      List.getElem?_eq_getElem hi, List.getElem?_eq_getElem h1]
    simp only []
    by_cases hc : data[i] > threshold
    · by_cases hp : data[i - 1] ≤ threshold
      · rw [if_pos hc, if_pos hp, ih (i + 1) _ (by omega) (by omega)]
        simp [hc, hp]
        ring
      · rw [if_pos hc, if_neg hp, ih (i + 1) _ (by omega) (by omega)]
        simp [hc, hp]
    · rw [if_neg hc, ih (i + 1) _ (by omega) (by omega)]
      simp [hc]

theorem peakLoop_start (data : List ℚ) :
    peakLoop data 1 0 = some (risingEdgeCount data : Int) := by
  rw [peakLoop_eq data (data.length - 1) 1 0 (le_refl 1) rfl, risingEdgeCount_eq_edgesFrom]
  simp

theorem isRisingEdge_cons (x : ℚ) (l : List ℚ) (i : Nat) (h0 : 1 ≤ i) :
    isRisingEdge (x :: l) (i + 1) = isRisingEdge l i := by
  obtain ⟨j, rfl⟩ : ∃ j, i = j + 1 := ⟨i - 1, by omega⟩
  simp [isRisingEdge]

theorem edgesFrom_cons (x : ℚ) (l : List ℚ) (n : Nat) :
    ∀ i, 1 ≤ i → l.length - i = n → edgesFrom (x :: l) (i + 1) = edgesFrom l i := by
  induction n with
  | zero =>
    intro i _ hn
    rw [edgesFrom_of_length_le _ _ (by simp; omega), edgesFrom_of_length_le _ _ (by omega)]
  | succ n ih =>
    intro i h0 hn
    rw [edgesFrom_step (x :: l) (i + 1) (by simp; omega), edgesFrom_step l i (by omega),
      isRisingEdge_cons x l i h0, ih (i + 1) (by omega) (by omega)]

theorem risingEdgeCount_cons_cons (x y : ℚ) (r : List ℚ) :
    risingEdgeCount (x :: y :: r) =
      (if x ≤ threshold ∧ y > threshold then 1 else 0) + risingEdgeCount (y :: r) := by
  rw [risingEdgeCount_eq_edgesFrom, risingEdgeCount_eq_edgesFrom,
    edgesFrom_step _ 1 (by simp), edgesFrom_cons x (y :: r) _ 1 (le_refl 1) rfl]
  simp [isRisingEdge]

theorem risingEdgeCount_eq_pairEdges (s : List ℚ) : risingEdgeCount s = pairEdges s := by
  induction s with
  | nil => simp [risingEdgeCount, pairEdges]
  | cons x l ih =>
    cases l with
    | nil => simp [risingEdgeCount, pairEdges]
    | cons y r => rw [risingEdgeCount_cons_cons, ih, pairEdges]

theorem pairEdges_le_aux (s : List ℚ) :
    pairEdges s ≤ s.length / 2 ∧
      (∀ x r, s = x :: r → x > threshold → pairEdges s ≤ r.length / 2) := by
  induction s with
  | nil => simp [pairEdges]
  | cons x l ih =>
    cases l with
    | nil => simp [pairEdges]
    | cons y r =>
      obtain ⟨ih1, ih2⟩ := ih
      have hlen : (x :: y :: r).length = r.length + 2 := by simp
      have hlen1 : (y :: r).length = r.length + 1 := by simp
      rw [hlen1] at ih1
      constructor
      · rw [pairEdges, hlen]
        split_ifs with h
        · have := ih2 y r rfl h.2
          omega
        · omega
      · intro x1 r1 heq hx
        obtain ⟨rfl, rfl⟩ := List.cons.inj heq
        rw [pairEdges, if_neg (fun h => absurd h.1 (not_le.mpr hx)), hlen1]
        omega

theorem risingEdgeCount_le_half (s : List ℚ) : risingEdgeCount s ≤ s.length / 2 := by
  rw [risingEdgeCount_eq_pairEdges]
  exact (pairEdges_le_aux s).1

theorem risingEdgeCount_of_length_le_one (s : List ℚ) (h : s.length ≤ 1) :
    risingEdgeCount s = 0 := by
  have := risingEdgeCount_le_half s
  omega

theorem isRisingEdge_append_left (s t : List ℚ) (i : Nat) (h : i < s.length) :
    isRisingEdge (s ++ t) i = isRisingEdge s i := by
  have h1 : i - 1 < s.length := by omega
  simp [isRisingEdge, List.getElem?_append_left h, List.getElem?_append_left h1]

theorem risingEdgeCount_append (s t : List ℚ)
    (h : ∀ i, max 1 s.length ≤ i → i < (s ++ t).length → isRisingEdge (s ++ t) i = false) :
    risingEdgeCount (s ++ t) = risingEdgeCount s := by
  unfold risingEdgeCount
  congr 1
  ext i
  simp only [Finset.mem_filter, Finset.mem_Ico, List.length_append]
  constructor
  · rintro ⟨⟨h1, h2⟩, he⟩
    by_cases hi : i < s.length
    · exact ⟨⟨h1, hi⟩, by rwa [isRisingEdge_append_left s t i hi] at he⟩
    · have := h i (max_le h1 (not_lt.mp hi)) (by simpa using h2)
      rw [this] at he
      exact absurd he (by simp)
  · rintro ⟨⟨h1, h2⟩, he⟩
    exact ⟨⟨h1, by omega⟩, by rwa [isRisingEdge_append_left s t i h2]⟩

theorem pairEdges_of_all_le (s : List ℚ) (h : ∀ v ∈ s, v ≤ threshold) : pairEdges s = 0 := by
  induction s with
  | nil => rfl
  | cons x l ih =>
    cases l with
    | nil => rfl
    | cons y r =>
      have hy : ¬ (x ≤ threshold ∧ y > threshold) :=
        fun hc => absurd (h y (by simp)) (not_le.mpr hc.2)
      rw [pairEdges, if_neg hy, ih (fun v hv => h v (List.mem_cons_of_mem x hv))]

theorem risingEdgeCount_of_all_le (s : List ℚ) (h : ∀ v ∈ s, v ≤ threshold) :
    risingEdgeCount s = 0 := by
  rw [risingEdgeCount_eq_pairEdges, pairEdges_of_all_le s h]

theorem isRisingEdge_not_adjacent (s : List ℚ) (i : Nat) :
    ¬ (isRisingEdge s i = true ∧ isRisingEdge s (i + 1) = true) := by
  rintro ⟨h1, h2⟩
  simp only [isRisingEdge, Nat.add_sub_cancel] at h1 h2
  cases hi : s[i]? with
  | none => simp [hi] at h2
  | some cur =>
    cases hp : s[i - 1]? with
    | none => simp [hp] at h1
    | some prev =>
      cases hn : s[i + 1]? with
      | none => simp [hi, hn] at h2
      | some next =>
        simp [hi, hp] at h1
        simp [hi, hn] at h2
        linarith [h1.2.2, h2.1]

/-! ## Facts about the view-model -/

theorem calculateHeartRate_bound (heap : Addr → EKGModel) (a : Addr) (old : ℚ) :
    EKGViewModel.calculateHeartRate heap ⟨some a, old⟩ =
      some (⟨some a, (risingEdgeCount (heap a).m_data : ℚ) * 60 / 10⟩,
        [Signal.heartRateChanged]) := by
  simp [EKGViewModel.calculateHeartRate, EKGModel.getData, peakLoop_start]

theorem calculateHeartRate_unbound (heap : Addr → EKGModel) (old : ℚ) :
    EKGViewModel.calculateHeartRate heap ⟨none, old⟩ = some (⟨none, old⟩, []) := rfl

theorem setModel_other (heap : Addr → EKGModel) (vm : EKGViewModel) (m : Addr)
    (h : vm.m_model ≠ some m) :
    vm.setModel heap (some m) =
      some (⟨some m, (risingEdgeCount (heap m).m_data : ℚ) * 60 / 10⟩,
        [Signal.modelChanged, Signal.heartRateChanged]) := by
  simp [EKGViewModel.setModel, h, calculateHeartRate_bound]

theorem setModel_same (heap : Addr → EKGModel) (vm : EKGViewModel) (model : Option Addr)
    (h : vm.m_model = model) : vm.setModel heap model = some (vm, []) := by
  simp [EKGViewModel.setModel, h]

theorem setModel_null (heap : Addr → EKGModel) (a : Addr) (old : ℚ) :
    EKGViewModel.setModel heap ⟨some a, old⟩ none =
      some (⟨none, old⟩, [Signal.modelChanged]) := by
  simp [EKGViewModel.setModel, EKGViewModel.calculateHeartRate]

/-! ## Facts about the program state -/

theorem step_generateData (s : Sys) (a : Addr) (points : Int) (rng : QRandomGenerator)
    (hp : 0 ≤ points) :
    s.step (Op.generateData a points rng) =
      some ⟨Function.update s.heap a ⟨firstDraws rng points.toNat⟩, s.vm⟩ := by
  simp [Sys.step, generateData_ok (s.heap a) points rng hp]

theorem step_generateData_throw (s : Sys) (a : Addr) (points : Int) (rng : QRandomGenerator)
    (hp : points < 0) :
    s.step (Op.generateData a points rng) = some ⟨Function.update s.heap a ⟨[]⟩, s.vm⟩ := by
  simp [Sys.step, generateData_negative (s.heap a) points rng hp]

theorem step_generateData_total (s : Sys) (a : Addr) (points : Int) (rng : QRandomGenerator) :
    ∃ m, s.step (Op.generateData a points rng) = some ⟨Function.update s.heap a m, s.vm⟩ := by
  by_cases hp : 0 ≤ points
  · exact ⟨_, step_generateData s a points rng hp⟩
  · exact ⟨_, step_generateData_throw s a points rng (not_le.mp hp)⟩

theorem step_calculateHeartRate_bound (s : Sys) (a : Addr) (h : s.vm.m_model = some a) :
    s.step Op.calculateHeartRate =
      some ⟨s.heap, ⟨some a, (risingEdgeCount (s.heap a).m_data : ℚ) * 60 / 10⟩⟩ := by
  obtain ⟨heap, m_model, old⟩ := s
  simp only at h
  subst h
  simp [Sys.step, calculateHeartRate_bound]

theorem step_calculateHeartRate_unbound (s : Sys) (h : s.vm.m_model = none) :
    s.step Op.calculateHeartRate = some s := by
  obtain ⟨heap, m_model, old⟩ := s
  simp only at h
  subst h
  simp [Sys.step, EKGViewModel.calculateHeartRate]

theorem step_setModel_same (s : Sys) (model : Option Addr) (h : s.vm.m_model = model) :
    s.step (Op.setModel model) = some s := by
  simp [Sys.step, setModel_same s.heap s.vm model h]

theorem step_setModel_other (s : Sys) (m : Addr) (h : s.vm.m_model ≠ some m) :
    s.step (Op.setModel (some m)) =
      some ⟨s.heap, ⟨some m, (risingEdgeCount (s.heap m).m_data : ℚ) * 60 / 10⟩⟩ := by
  simp [Sys.step, setModel_other s.heap s.vm m h]

theorem step_setModel_null (s : Sys) (s1 : Sys) (h : s.step (Op.setModel none) = some s1) :
    s1.vm.m_model = none := by
  by_cases hm : s.vm.m_model = none
  · rw [step_setModel_same s none hm] at h
    cases h
    exact hm
  · obtain ⟨heap, m_model, old⟩ := s
    cases m_model with
    | none => exact absurd rfl hm
    | some a =>
      simp [Sys.step, setModel_null] at h
      rw [← h]

theorem upToDate_after_recompute (heap : Addr → EKGModel) (m : Addr) :
    Sys.UpToDate ⟨heap, ⟨some m, (risingEdgeCount (heap m).m_data : ℚ) * 60 / 10⟩⟩ := by
  intro a ha
  simp only [EKGViewModel.model, Option.some.injEq] at ha
  subst ha
  simp only [EKGViewModel.heartRate, EKGModel.getData]
  ring

theorem upToDate_of_unbound (s : Sys) (h : s.vm.m_model = none) : s.UpToDate := by
  intro a ha
  simp [EKGViewModel.model, h] at ha

theorem upToDate_step_setModel (s s1 : Sys) (model : Option Addr)
    (hs : s.vm.m_model = model → s.UpToDate) (h : s.step (Op.setModel model) = some s1) :
    s1.UpToDate := by
  by_cases hm : s.vm.m_model = model
  · rw [step_setModel_same s model hm] at h
    cases h
    exact hs hm
  · cases model with
    | none => exact upToDate_of_unbound s1 (step_setModel_null s s1 h)
    | some m =>
      rw [step_setModel_other s m hm] at h
      cases h
      exact upToDate_after_recompute s.heap m

theorem upToDate_step_calculateHeartRate (s s1 : Sys)
    (h : s.step Op.calculateHeartRate = some s1) : s1.UpToDate := by
  cases hm : s.vm.m_model with
  | none =>
    rw [step_calculateHeartRate_unbound s hm] at h
    cases h
    exact upToDate_of_unbound s hm
  | some a =>
    rw [step_calculateHeartRate_bound s a hm] at h
    cases h
    exact upToDate_after_recompute s.heap a

theorem synced_reachable (s : Sys) (h : s.Synced) : s.Reachable := by
  induction h with
  | initial s hi => exact Sys.Reachable.initial s hi
  | setModel s s1 model _ hstep ih => exact Sys.Reachable.setModel s s1 model ih hstep
  | rebind s s1 model hr _ hstep => exact Sys.Reachable.setModel s s1 model hr hstep
  | calculateHeartRate s s1 hr hstep => exact Sys.Reachable.calculateHeartRate s s1 hr hstep

theorem synced_upToDate (s : Sys) (h : s.Synced) : s.UpToDate := by
  induction h with
  | initial s hi => exact upToDate_of_unbound s (by rw [hi.1]; rfl)
  | setModel s s1 model _ hstep ih => exact upToDate_step_setModel s s1 model (fun _ => ih) hstep
  | rebind s s1 model _ hne hstep =>
    exact upToDate_step_setModel s s1 model (fun h => absurd h hne) hstep
  | calculateHeartRate s s1 _ hstep => exact upToDate_step_calculateHeartRate s s1 hstep

theorem sysConstructed_initial : sysConstructed.Initial := by
  have h := generateData_ok ⟨[]⟩ 1000 zeroRng (by norm_num)
  exact ⟨rfl, fun _ => ⟨zeroRng, _, _, h⟩⟩

theorem risingEdgeCount_zeroRng (k : Nat) : risingEdgeCount (firstDraws zeroRng k) = 0 := by
  apply risingEdgeCount_of_all_le
  intro v hv
  simp only [firstDraws, zeroRng, List.mem_map, List.mem_range] at hv
  obtain ⟨_, _, rfl⟩ := hv
  norm_num [threshold]

theorem risingEdgeCount_rising : risingEdgeCount [1 / 2, 9 / 10] = 1 := by
  rw [risingEdgeCount_eq_pairEdges]
  norm_num [pairEdges, threshold]

theorem firstDraws_risingRng : firstDraws risingRng 2 = [1 / 2, 9 / 10] := by
  norm_num [firstDraws, risingRng, List.range_succ]

theorem sysConstructed_step : sysConstructed.step (Op.setModel (some 0)) = some sysBound := by
  rw [step_setModel_other _ 0 (by simp [sysConstructed, EKGViewModel.new])]
  simp [sysBound, sysConstructed, risingEdgeCount_zeroRng]

theorem sysBound_step :
    sysBound.step (Op.generateData 0 2 risingRng) = some sysRegenerated := by
  rw [step_generateData _ 0 2 risingRng (by norm_num)]
  have : (2 : Int).toNat = 2 := rfl
  rw [this, firstDraws_risingRng]
  rfl

theorem sysRegenerated_step : sysRegenerated.step Op.calculateHeartRate = some sysRecomputed := by
  rw [step_calculateHeartRate_bound _ 0 rfl]
  simp only [sysRegenerated, Function.update_same, risingEdgeCount_rising, sysRecomputed]
  norm_num

theorem sysRegenerated_reachable : sysRegenerated.Reachable :=
  Sys.Reachable.generateData sysBound sysRegenerated 0 2 risingRng
    (Sys.Reachable.setModel sysConstructed sysBound (some 0)
      (Sys.Reachable.initial _ sysConstructed_initial) sysConstructed_step)
    rfl sysBound_step

theorem sysRecomputed_synced : sysRecomputed.Synced :=
  Sys.Synced.calculateHeartRate sysRegenerated sysRecomputed sysRegenerated_reachable
    sysRegenerated_step

/-! ## The claims -/

/-- C1: with a model bound, `calculateHeartRate` returns (every access is in range) and sets
`heartRate` to `c * 60 / 10`, where `c` is the number of indices `i` with
`1 ≤ i < length s`, `s[i-1] ≤ 0.8` and `s[i] > 0.8` in the bound model's samples `s`, and
publishes `heartRateChanged`. On `[0.5, 0.9, 0.3, 0.85, 0.2]` the count is 2 and the
rate 12; on `[0.9, 0.9, 0.9]` the count is 0 and the rate 0. -/
theorem calculateHeartRate_counts_rising_edges :
    (∀ (heap : Addr → EKGModel) (a : Addr) (old : ℚ),
      EKGViewModel.calculateHeartRate heap ⟨some a, old⟩ =
        some (⟨some a, (risingEdgeCount (heap a).m_data : ℚ) * 60 / 10⟩,
          [Signal.heartRateChanged])) ∧
    (risingEdgeCount [0.5, 0.9, 0.3, 0.85, 0.2] = 2 ∧
      ∀ (a : Addr) (old : ℚ),
        EKGViewModel.calculateHeartRate (fun _ => ⟨[0.5, 0.9, 0.3, 0.85, 0.2]⟩) ⟨some a, old⟩ =
          some (⟨some a, 12⟩, [Signal.heartRateChanged])) ∧
    (risingEdgeCount [0.9, 0.9, 0.9] = 0 ∧
      ∀ (a : Addr) (old : ℚ),
        EKGViewModel.calculateHeartRate (fun _ => ⟨[0.9, 0.9, 0.9]⟩) ⟨some a, old⟩ =
          some (⟨some a, 0⟩, [Signal.heartRateChanged])) := by
  have h2 : risingEdgeCount [0.5, 0.9, 0.3, 0.85, 0.2] = 2 := by
    rw [risingEdgeCount_eq_pairEdges]
    norm_num [pairEdges, threshold]
  have h0 : risingEdgeCount [0.9, 0.9, 0.9] = 0 := by
    rw [risingEdgeCount_eq_pairEdges]
    norm_num [pairEdges, threshold]
  refine ⟨calculateHeartRate_bound, ⟨h2, fun a old => ?_⟩, ⟨h0, fun a old => ?_⟩⟩
  · rw [calculateHeartRate_bound, h2]
    norm_num
  · rw [calculateHeartRate_bound, h0]
    norm_num

/-- C2: when the bound model holds the empty sequence or a single sample, the scan loop
returns normally with no access out of range and count 0, and `calculateHeartRate` sets
`heartRate` to exactly 0. -/
theorem calculateHeartRate_short_sequence (heap : Addr → EKGModel) (a : Addr) (old : ℚ)
    (h : (heap a).m_data = [] ∨ ∃ x, (heap a).m_data = [x]) :
    peakLoop (heap a).getData 1 0 = some 0 ∧
      EKGViewModel.calculateHeartRate heap ⟨some a, old⟩ =
        some (⟨some a, 0⟩, [Signal.heartRateChanged]) := by
  have hlen : (heap a).m_data.length ≤ 1 := by
    rcases h with h | ⟨x, h⟩ <;> simp [h]
  have hc := risingEdgeCount_of_length_le_one _ hlen
  constructor
  · rw [EKGModel.getData, peakLoop_start, hc]
    rfl
  · rw [calculateHeartRate_bound, hc]
    norm_num

/-- Witness for C2 at the model holding the single sample `0.9`. -/
theorem calculateHeartRate_short_sequence_witness :
    peakLoop (EKGModel.getData ⟨[0.9]⟩) 1 0 = some 0 ∧
      EKGViewModel.calculateHeartRate (fun _ => ⟨[0.9]⟩) ⟨some 0, 72⟩ =
        some (⟨some 0, 0⟩, [Signal.heartRateChanged]) :=
  calculateHeartRate_short_sequence (fun _ => ⟨[0.9]⟩) 0 72 (Or.inr ⟨0.9, rfl⟩)

/-- C3: appending to the bound model's samples `s` values `t` such that no index
`i ≥ max 1 (length s)` of `s ++ t` is a rising-edge crossing leaves the outcome of
`calculateHeartRate` (the heart rate it sets and what it publishes) as it is for `s`. -/
theorem calculateHeartRate_append_no_crossing (heap : Addr → EKGModel) (a : Addr) (old : ℚ)
    (s t : List ℚ)
    (h : ∀ i, max 1 s.length ≤ i → i < (s ++ t).length → isRisingEdge (s ++ t) i = false) :
    EKGViewModel.calculateHeartRate (Function.update heap a ⟨s ++ t⟩) ⟨some a, old⟩ =
      EKGViewModel.calculateHeartRate (Function.update heap a ⟨s⟩) ⟨some a, old⟩ := by
  rw [calculateHeartRate_bound, calculateHeartRate_bound]
  simp [risingEdgeCount_append s t h]

/-- Witness for C3: appending `[0.9, 0.7]` to `[0.5, 0.9]`. -/
theorem calculateHeartRate_append_no_crossing_witness :
    (∀ i, max 1 ([0.5, 0.9] : List ℚ).length ≤ i → i < ([0.5, 0.9] ++ [0.9, 0.7]).length →
      isRisingEdge ([0.5, 0.9] ++ [0.9, 0.7]) i = false) ∧
    EKGViewModel.calculateHeartRate
        (Function.update (fun _ => ⟨[]⟩) 0 ⟨[0.5, 0.9] ++ [0.9, 0.7]⟩) ⟨some 0, 0⟩ =
      EKGViewModel.calculateHeartRate
        (Function.update (fun _ => ⟨[]⟩) 0 ⟨[0.5, 0.9]⟩) ⟨some 0, 0⟩ := by
  have hyp : ∀ i, max 1 ([0.5, 0.9] : List ℚ).length ≤ i →
      i < ([0.5, 0.9] ++ [0.9, 0.7]).length →
      isRisingEdge ([0.5, 0.9] ++ [0.9, 0.7]) i = false := by
    intro i h1 h2
    simp at h1 h2
    have : i = 2 ∨ i = 3 := by omega
    rcases this with rfl | rfl <;> norm_num [isRisingEdge, threshold]
  exact ⟨hyp, calculateHeartRate_append_no_crossing _ 0 0 _ _ hyp⟩

/-- C4: for `points > 0`, any previous content `m` and a random source whose draws all lie
in `[0, 1)`, `generateData(points)` returns normally with a model for which `rowCount()`
is `points`, `getData()` has length `points`, every sample `v` has `0 ≤ v < 1`, and the
sample at each position is the draw made for it in this call (nothing of the previous
content remains, and the result is the same for any other previous content); a freshly
constructed model holds exactly 1000 samples. -/
theorem generateData_replaces_with_points_samples (m : EKGModel) (points : Int)
    (rng : QRandomGenerator) (hp : 0 < points)
    (hr : ∀ n, 0 ≤ rng.draws n ∧ rng.draws n < 1) :
    (∃ m1 rng1 signals, m.generateData points rng = Except.ok (m1, rng1, signals) ∧
      (∀ parent, (m1.rowCount parent).1 = points) ∧
      (m1.getData.length : Int) = points ∧
      (∀ v ∈ m1.getData, 0 ≤ v ∧ v < 1) ∧
      (∀ i (hi : i < m1.getData.length), m1.getData[i] = rng.draws i) ∧
      (∀ other : EKGModel, other.generateData points rng = Except.ok (m1, rng1, signals))) ∧
    (∃ m0 rng1 signals, EKGModel.new rng = Except.ok (m0, rng1, signals) ∧
      (∀ parent, (m0.rowCount parent).1 = 1000) ∧ m0.getData.length = 1000) := by
  have hlen : ((firstDraws rng points.toNat).length : Int) = points := by
    rw [firstDraws_length]
    omega
  constructor
  · refine ⟨_, _, _, generateData_ok m points rng (le_of_lt hp), ?_, ?_, ?_, ?_, ?_⟩
    · intro parent
      simpa [EKGModel.rowCount] using hlen
    · simpa [EKGModel.getData] using hlen
    · intro v hv
      exact firstDraws_mem rng _ v hr hv
    · intro i hi
      exact firstDraws_getElem rng _ i hi
    · intro other
      exact generateData_ok other points rng (le_of_lt hp)
  · refine ⟨_, _, _, generateData_ok _ 1000 rng (by norm_num), ?_, ?_⟩
    · intro parent
      simp [EKGModel.rowCount, firstDraws_length]
    · simp [EKGModel.getData, firstDraws_length]

/-- Witness for C4: three samples from the random source that always draws `1/2`, into a
model that held `[0.9]`. -/
theorem generateData_replaces_with_points_samples_witness :
    (0 : Int) < 3 ∧
    (∀ n, 0 ≤ (⟨fun _ => 1 / 2⟩ : QRandomGenerator).draws n ∧
      (⟨fun _ => 1 / 2⟩ : QRandomGenerator).draws n < 1) ∧
    ((∃ m1 rng1 signals,
      (⟨[0.9]⟩ : EKGModel).generateData 3 ⟨fun _ => 1 / 2⟩ = Except.ok (m1, rng1, signals) ∧
      (∀ parent, (m1.rowCount parent).1 = 3) ∧
      (m1.getData.length : Int) = 3 ∧
      (∀ v ∈ m1.getData, 0 ≤ v ∧ v < 1) ∧
      (∀ i (hi : i < m1.getData.length),
        m1.getData[i] = (⟨fun _ => 1 / 2⟩ : QRandomGenerator).draws i) ∧
      (∀ other : EKGModel,
        other.generateData 3 ⟨fun _ => 1 / 2⟩ = Except.ok (m1, rng1, signals))) ∧
    (∃ m0 rng1 signals, EKGModel.new ⟨fun _ => 1 / 2⟩ = Except.ok (m0, rng1, signals) ∧
      (∀ parent, (m0.rowCount parent).1 = 1000) ∧ m0.getData.length = 1000)) :=
  ⟨by decide, fun _ => by norm_num,
    generateData_replaces_with_points_samples ⟨[0.9]⟩ 3 ⟨fun _ => 1 / 2⟩ (by decide)
      (fun _ => by norm_num)⟩

/-- C5 as stated fails: `generateData(0)` on a model holding `[0.9]` is not rejected; it
returns normally and leaves the model holding the empty sequence. -/
theorem generateData_zero_not_rejected :
    (∃ rng1 signals, (⟨[0.9]⟩ : EKGModel).generateData 0 ⟨fun _ => 1 / 2⟩ =
      Except.ok (⟨[]⟩, rng1, signals)) ∧
    ∀ e, (⟨[0.9]⟩ : EKGModel).generateData 0 ⟨fun _ => 1 / 2⟩ ≠ Except.error e := by
  have h := generateData_ok ⟨[0.9]⟩ 0 ⟨fun _ => 1 / 2⟩ (le_refl 0)
  constructor
  · exact ⟨_, _, h⟩
  · intro e he
    rw [h] at he
    cases he

/-- C5, amended: `generateData(0)` is not rejected. For every previous content and random
source it returns normally, consumes no draw, leaves the model holding the empty sequence
and publishes `dataChanged` with two invalid indices. -/
theorem generateData_zero_returns_empty (m : EKGModel) (rng : QRandomGenerator) :
    m.generateData 0 rng =
      Except.ok (⟨[]⟩, rng,
        [Signal.dataChanged QModelIndex.invalid QModelIndex.invalid]) := by
  rw [generateData_ok m 0 rng (le_refl 0)]
  simp [firstDraws, index_of_empty, QRandomGenerator.advance]

/-- C6: for every view-model state and model `m`: if `m` is not the bound model,
`setModel(m)` binds `m`, sets `heartRate` to 6 times the number of rising-edge crossings
in the samples of `m`, and publishes `modelChanged` then `heartRateChanged`; if `m` is the
bound model, `setModel(m)` leaves the bound model and `heartRate` as they are and
publishes nothing. -/
theorem setModel_recomputes_iff_changed (heap : Addr → EKGModel) (vm : EKGViewModel)
    (m : Addr) :
    (vm.m_model ≠ some m →
      ∃ vm1, vm.setModel heap (some m) =
          some (vm1, [Signal.modelChanged, Signal.heartRateChanged]) ∧
        vm1.model = some m ∧
        vm1.heartRate = 6 * (risingEdgeCount (heap m).getData : ℚ)) ∧
    (vm.m_model = some m → vm.setModel heap (some m) = some (vm, [])) := by
  constructor
  · intro h
    refine ⟨_, setModel_other heap vm m h, rfl, ?_⟩
    simp only [EKGViewModel.heartRate, EKGModel.getData]
    ring
  · intro h
    exact setModel_same heap vm (some m) h

/-- Witness for C6: binding the model at address 0 (holding `[0.5, 0.9]`) to a fresh
view-model, and binding it again to a view-model that already has it. -/
theorem setModel_recomputes_iff_changed_witness :
    (∃ vm1, EKGViewModel.new.setModel (fun _ => ⟨[0.5, 0.9]⟩) (some 0) =
          some (vm1, [Signal.modelChanged, Signal.heartRateChanged]) ∧
        vm1.model = some 0 ∧
        vm1.heartRate =
          6 * (risingEdgeCount (EKGModel.getData ⟨[0.5, 0.9]⟩) : ℚ)) ∧
    EKGViewModel.setModel (fun _ => ⟨[0.5, 0.9]⟩) ⟨some 0, 72⟩ (some 0) =
      some (⟨some 0, 72⟩, []) :=
  ⟨(setModel_recomputes_iff_changed (fun _ => ⟨[0.5, 0.9]⟩) EKGViewModel.new 0).1
      (by simp [EKGViewModel.new]),
    (setModel_recomputes_iff_changed (fun _ => ⟨[0.5, 0.9]⟩) ⟨some 0, 72⟩ 0).2 rfl⟩

/-- C8: `rowCount()` is the number of held samples; for a valid index with
`0 ≤ row < rowCount()` and role `ValueRole`, `data` returns the sample at position `row`;
for an invalid index, a row at or beyond `rowCount()`, or any other role it returns the
empty variant; and neither call changes the model. -/
theorem rowCount_data_view (m : EKGModel) :
    (∀ parent, (m.rowCount parent).1 = (m.m_data.length : Int)) ∧
    (∀ index : QModelIndex, index.isValid = true → 0 ≤ index.row →
      index.row < (m.rowCount QModelIndex.invalid).1 →
      ∃ h : index.row.toNat < m.m_data.length,
        (m.data index ValueRole).1 = some (QVariant.double m.m_data[index.row.toNat])) ∧
    (∀ (index : QModelIndex) (role : Int),
      index.isValid = false ∨ index.row ≥ (m.rowCount QModelIndex.invalid).1 ∨
        role ≠ ValueRole →
      (m.data index role).1 = some QVariant.empty) ∧
    (∀ parent, (m.rowCount parent).2 = m) ∧
    (∀ index role, (m.data index role).2 = m) := by
  refine ⟨fun _ => rfl, ?_, ?_, fun _ => rfl, ?_⟩
  · intro index hv h0 hlt
    simp only [EKGModel.rowCount] at hlt
    have hn : index.row.toNat < m.m_data.length := by omega
    refine ⟨hn, ?_⟩
    simp [EKGModel.data, hv, not_le.mpr hlt, List.getElem?_eq_getElem hn]
  · intro index role h
    simp only [EKGModel.rowCount] at h
    unfold EKGModel.data
    rcases h with h | h | h
    · simp [h]
    · simp [h]
    · by_cases hc : (!index.isValid || decide (index.row ≥ (m.m_data.length : Int))) = true
      · rw [if_pos hc]
      · rw [if_neg hc, if_neg h]
  · intro index role
    unfold EKGModel.data
    split_ifs <;> rfl

/-- Witness for C8 on the model holding `[0.5, 0.9]`: row 1 under `ValueRole`, and row 1
under `DisplayRole`. -/
theorem rowCount_data_view_witness :
    (∃ h : (⟨1, 0, true⟩ : QModelIndex).row.toNat < (⟨[0.5, 0.9]⟩ : EKGModel).m_data.length,
      ((⟨[0.5, 0.9]⟩ : EKGModel).data ⟨1, 0, true⟩ ValueRole).1 =
        some (QVariant.double
          ((⟨[0.5, 0.9]⟩ : EKGModel).m_data.get ⟨(⟨1, 0, true⟩ : QModelIndex).row.toNat, h⟩))) ∧
    ((⟨[0.5, 0.9]⟩ : EKGModel).data ⟨1, 0, true⟩ DisplayRole).1 = some QVariant.empty :=
  ⟨(rowCount_data_view ⟨[0.5, 0.9]⟩).2.1 ⟨1, 0, true⟩ (by decide) (by decide)
      (by simp [EKGModel.rowCount]),
    (rowCount_data_view ⟨[0.5, 0.9]⟩).2.2.1 ⟨1, 0, true⟩ DisplayRole
      (Or.inr (Or.inr (by decide)))⟩

/-- C9: for the bound model's samples `s` of length `n`, no two adjacent indices are both
rising-edge crossings, the count the scan loop computes is at most `n / 2` (rounded
down), and `heartRate` becomes 6 times that count, so it is non-negative and at most
`6 * (n / 2)`; for a freshly constructed model (1000 samples) it is at most 3000. -/
theorem heartRate_at_most_three_per_sample (heap : Addr → EKGModel) (a : Addr) (old : ℚ)
    (rng : QRandomGenerator) :
    (∀ i, ¬ (isRisingEdge (heap a).getData i = true ∧
      isRisingEdge (heap a).getData (i + 1) = true)) ∧
    (∃ c : Nat, peakLoop (heap a).getData 1 0 = some (c : Int) ∧
      c ≤ (heap a).getData.length / 2 ∧
      ∃ vm1 signals, EKGViewModel.calculateHeartRate heap ⟨some a, old⟩ = some (vm1, signals) ∧
        vm1.heartRate = 6 * (c : ℚ) ∧ 0 ≤ vm1.heartRate ∧
        vm1.heartRate ≤ 6 * (((heap a).getData.length / 2 : Nat) : ℚ)) ∧
    (∃ m0 rng1 signals0, EKGModel.new rng = Except.ok (m0, rng1, signals0) ∧
      ∃ vm1 signals, EKGViewModel.calculateHeartRate (Function.update heap a m0) ⟨some a, old⟩ =
          some (vm1, signals) ∧
        vm1.heartRate ≤ 3000) := by
  refine ⟨fun i => isRisingEdge_not_adjacent _ i, ?_, ?_⟩
  · have hle := risingEdgeCount_le_half (heap a).m_data
    have hq : ((risingEdgeCount (heap a).m_data : ℕ) : ℚ) ≤
        (((heap a).m_data.length / 2 : ℕ) : ℚ) := by exact_mod_cast hle
    have h0 : (0 : ℚ) ≤ (risingEdgeCount (heap a).m_data : ℚ) := Nat.cast_nonneg _
    refine ⟨risingEdgeCount (heap a).m_data, peakLoop_start _, hle, _, _,
      calculateHeartRate_bound heap a old, ?_, ?_, ?_⟩
    · simp only [EKGViewModel.heartRate]
      ring
    · simp only [EKGViewModel.heartRate]
      linarith
    · simp only [EKGViewModel.heartRate, EKGModel.getData]
      linarith
  · refine ⟨_, _, _, generateData_ok _ 1000 rng (by norm_num), _, _,
      calculateHeartRate_bound _ a old, ?_⟩
    have hle := risingEdgeCount_le_half (firstDraws rng (1000 : Int).toNat)
    rw [firstDraws_length] at hle
    have h500 : risingEdgeCount (firstDraws rng (1000 : Int).toNat) ≤ 500 := by
      have : (1000 : Int).toNat / 2 = 500 := by decide
      omega
    have hq : ((risingEdgeCount (firstDraws rng (1000 : Int).toNat) : ℕ) : ℚ) ≤ 500 := by
      exact_mod_cast h500
    simp only [EKGViewModel.heartRate, Function.update_same]
    linarith

/-- C10: with no model bound, `calculateHeartRate` leaves the view-model as it is and
publishes nothing; a freshly constructed view-model has `heartRate` 0 and keeps it; and
after a heart rate was computed for a bound model, `setModel(nullptr)` unbinds the model,
publishes only `modelChanged` and keeps that heart rate, as does a further
`calculateHeartRate`. -/
theorem calculateHeartRate_without_model :
    (∀ (heap : Addr → EKGModel) (old : ℚ),
      EKGViewModel.calculateHeartRate heap ⟨none, old⟩ = some (⟨none, old⟩, [])) ∧
    (EKGViewModel.new.heartRate = 0 ∧
      ∀ heap : Addr → EKGModel,
        EKGViewModel.new.calculateHeartRate heap = some (EKGViewModel.new, [])) ∧
    (∀ (heap : Addr → EKGModel) (a : Addr) (old : ℚ),
      ∃ vm1 signals, EKGViewModel.calculateHeartRate heap ⟨some a, old⟩ = some (vm1, signals) ∧
        vm1.setModel heap none = some (⟨none, vm1.heartRate⟩, [Signal.modelChanged]) ∧
        EKGViewModel.calculateHeartRate heap ⟨none, vm1.heartRate⟩ =
          some (⟨none, vm1.heartRate⟩, [])) := by
  refine ⟨fun _ _ => rfl, ⟨rfl, fun _ => rfl⟩, fun heap a old => ?_⟩
  exact ⟨_, _, calculateHeartRate_bound heap a old, setModel_null heap a _, rfl⟩

/-- C7 as stated fails: after construction (every sample 0), `setModel` of the model at
address 0 (heart rate 0) and `generateData(2)` drawing `1/2, 9/10` on that bound model, the
bound model has one rising-edge crossing and `heartRate` is still 0, not 6. -/
theorem heartRate_stale_after_generateData :
    ¬ ∀ s : Sys, s.Reachable → ∀ a, s.vm.model = some a →
      s.vm.heartRate = 6 * (risingEdgeCount (s.heap a).getData : ℚ) := by
  intro h
  have h1 := h sysRegenerated sysRegenerated_reachable 0 rfl
  simp only [sysRegenerated, EKGViewModel.heartRate, EKGModel.getData,
    Function.update_same, risingEdgeCount_rising] at h1
  norm_num at h1

/-- C7, amended: in every state reached from construction by `setModel`,
`calculateHeartRate` and `generateData` on the bound model in which `generateData` was not
called on the bound model since `heartRate` was last computed (by `calculateHeartRate` or
by a `setModel` that changed the bound model), `heartRate` is 6 times the number of
rising-edge crossings in the bound model's current samples; and a `generateData` on the
bound model, returning or throwing, leads to a reachable state with the same bound model
and the same `heartRate`, that of the samples held before the call. -/
theorem heartRate_current_while_synced (s : Sys) (h : s.Synced) :
    s.Reachable ∧
    (∀ a, s.vm.model = some a →
      s.vm.heartRate = 6 * (risingEdgeCount (s.heap a).getData : ℚ)) ∧
    (∀ a points rng, s.vm.model = some a →
      ∃ s1, s.step (Op.generateData a points rng) = some s1 ∧ s1.Reachable ∧
        s1.vm.model = some a ∧ s1.vm.heartRate = s.vm.heartRate ∧
        s1.vm.heartRate = 6 * (risingEdgeCount (s.heap a).getData : ℚ)) := by
  refine ⟨synced_reachable s h, synced_upToDate s h, fun a points rng ha => ?_⟩
  obtain ⟨m, hm⟩ := step_generateData_total s a points rng
  exact ⟨_, hm, Sys.Reachable.generateData s _ a points rng (synced_reachable s h) ha hm,
    ha, rfl, synced_upToDate s h a ha⟩

/-- Witness for the amended C7 at `sysRecomputed`: the bound model holds `[1/2, 9/10]`
(one crossing) and the heart rate is 6. -/
theorem heartRate_current_while_synced_witness :
    sysRecomputed.Synced ∧ sysRecomputed.vm.model = some 0 ∧
      (sysRecomputed.heap 0).getData = [1 / 2, 9 / 10] ∧
      risingEdgeCount (sysRecomputed.heap 0).getData = 1 ∧
      sysRecomputed.vm.heartRate = 6 ∧
      (sysRecomputed.Reachable ∧
        (∀ a, sysRecomputed.vm.model = some a →
          sysRecomputed.vm.heartRate =
            6 * (risingEdgeCount (sysRecomputed.heap a).getData : ℚ)) ∧
        (∀ a points rng, sysRecomputed.vm.model = some a →
          ∃ s1, sysRecomputed.step (Op.generateData a points rng) = some s1 ∧ s1.Reachable ∧
            s1.vm.model = some a ∧ s1.vm.heartRate = sysRecomputed.vm.heartRate ∧
            s1.vm.heartRate =
              6 * (risingEdgeCount (sysRecomputed.heap a).getData : ℚ))) :=
  ⟨sysRecomputed_synced, rfl, rfl, risingEdgeCount_rising, rfl,
    heartRate_current_while_synced sysRecomputed sysRecomputed_synced⟩

end EKG
